import Mathlib

/-!
Verification of the three-tier Sinhala emotion classifier
(`src/classify.py`, class `EmotionClassifier`).

The Python classifier is shallowly embedded below.  Conventions:

* Python `float` arithmetic is modelled by exact rationals (`ℚ`);
  `round(x, 4)` is modelled by `round4`, and the decimal renderings that
  appear only inside human-readable strings are modelled by total
  functions on `ℚ` (the claims under study depend only on the fixed
  textual prefixes of those strings, never on digit rendering).
* The sentence-transformer embedder is opaque; `classify_ml` therefore
  receives the L2-normalised query embedding as an explicit vector
  argument, exactly as it is used (only through dot products with the
  stored centroids).
* Python `dict`s are modelled by insertion-ordered association lists,
  `set`s by lists queried with membership, preserving the source's
  iteration orders.
-/

/-- One value of `self.frames_data[frame_name]` (Python dict loaded from
`frames.json`), restricted to the fields read by `_match_frames`. -/
structure FrameProps where
  typicalEmotion : String
  agentEmotion : String
  patientEmotion : String
  negatedEmotion : String
  polarity : String
  weight : ℚ
  deriving Repr, DecidableEq

/-- A match dict produced by `_match_frames` (Python dict literal at
`classify.py:314`). -/
structure FrameMatch where
  token_idx : ℕ
  token : String
  matched_label : String
  frame_name : String
  typicalEmotion : String
  agentEmotion : String
  patientEmotion : String
  negatedEmotion : String
  polarity : String
  weight : ℚ
  deriving Repr, DecidableEq

/-- The `role_info` sub-dict built by `_analyze_linguistics`. -/
structure RoleInfo where
  speaker_is_agent : Bool
  speaker_is_patient : Bool
  speaker_is_experiencer : Bool
  hostile_address : Bool
  hostile_count : ℕ
  deriving Repr, DecidableEq

/-- One entry of `connective_positions`: `(index, type, pre_weight, post_weight)`. -/
structure ConnPos where
  idx : ℕ
  ty : String
  pre_w : ℚ
  post_w : ℚ
  deriving Repr, DecidableEq

/-- The dict returned by `_analyze_linguistics`. -/
structure LinguisticContext where
  negation_positions : List ℕ
  intensifier_positions : List (ℕ × ℚ)
  diminisher_positions : List (ℕ × ℚ)
  connective_positions : List ConnPos
  role_info : RoleInfo
  deriving Repr, DecidableEq

/-- The lookup structures an `EmotionClassifier` instance holds after
`__init__` (sets/maps built by `_build_modifier_lookups` and
`_build_role_marker_lookups`, the trigger index materialised from the
RDF graph, the frames table, the centroid table and model availability). -/
structure Classifier where
  negation_words : List String
  intensifier_map : List (String × ℚ)
  diminisher_map : List (String × ℚ)
  connective_map : List (String × String × ℚ × ℚ)
  hostile_words : List String
  first_person_agent : List String
  first_person_patient : List String
  first_person_experiencer : List String
  /-- `(label, frame_name)` pairs: the `LexicalTrigger`/`triggersFrame`
  facts the SPARQL query in `_match_frames` ranges over. -/
  triggers : List (String × String)
  frames_data : List (String × FrameProps)
  centroids : List (String × List ℚ)
  model_available : Bool

/-- The dict returned by `predict`. -/
structure ClassificationResult where
  label : String
  confidence : ℚ
  method : String
  matched_words : List (String × List String)
  explanation : List String
  deriving Repr, DecidableEq

/-- Association-list lookup, the reading `d[k]`/`d.get(k)` of a Python dict. -/
def alistGet {β : Type} (d : List (String × β)) (k : String) : Option β :=
  (d.find? (fun p => p.1 == k)).map (fun p => p.2)

/-- Python `k in d` for a dict modelled as an association list. -/
def alistMem {β : Type} (d : List (String × β)) (k : String) : Bool :=
  d.any (fun p => p.1 == k)

/-- Python `round(x, 4)`: rounding to four decimal places (the source
rounds binary floats; we round the exact rational, which the spec's
±1-ulp tolerance covers). -/
def round4 (q : ℚ) : ℚ := (round (q * 10000) : ℤ) / 10000

/-- Python `round(x, 2)`-style rendering used only inside method /
explanation strings; modelled numerically then printed. -/
def round2 (q : ℚ) : ℚ := (round (q * 100) : ℤ) / 100

/-- Decimal-ish rendering of a rational for the f-string interpolations;
exact digit output of Python float repr is not modelled (no claim reads
these digits). -/
def ratStr (q : ℚ) : String := toString q.num ++ "/" ++ toString q.den

/-- Python `len` of a string: the number of Unicode code points
(`String.data` is the code-point list). -/
def tokLen (s : String) : ℕ := s.data.length

/-- Python `startswith` / SPARQL `STRSTARTS`, on code points. -/
def strPrefix (p s : String) : Bool := List.isPrefixOf p.data s.data

/-- Python `endswith`, on code points. -/
def strSuffix (suf s : String) : Bool := List.isSuffixOf suf.data s.data

-- ===================================================================
-- Constants for Tier 1 analysis (classify.py:38-40)
-- ===================================================================

def NEGATION_WINDOW : ℕ := 2
def INTENSIFIER_WINDOW : ℕ := 3
def HOSTILE_ADDRESS_WEIGHT : ℚ := 0.7

-- ===================================================================
-- Tier 1: _analyze_linguistics (classify.py:178-256)
-- ===================================================================

/-- The verb-final negation suffixes checked at `classify.py:239`. -/
def negSuffixes : List String := ["න්නෑ", "න්නැහැ", "න්බෑ", "න්බැහැ"]

/-- Loop body of `_analyze_linguistics` for the token at index `idx`. -/
def analyzeStep (c : Classifier) (ctx : LinguisticContext) (idx : ℕ)
    (token : String) : LinguisticContext :=
  let negs :=
    if c.negation_words.contains token then
      ctx.negation_positions ++ [idx]
    else ctx.negation_positions
  let ints :=
    match alistGet c.intensifier_map token with
    | some m => ctx.intensifier_positions ++ [(idx, m)]
    | none => ctx.intensifier_positions
  let dims :=
    match alistGet c.diminisher_map token with
    | some m => ctx.diminisher_positions ++ [(idx, m)]
    | none => ctx.diminisher_positions
  let conns :=
    match alistGet c.connective_map token with
    | some (ty, pre_w, post_w) =>
        ctx.connective_positions ++ [⟨idx, ty, pre_w, post_w⟩]
    | none => ctx.connective_positions
  let hostile := c.hostile_words.contains token
  let role : RoleInfo :=
    { speaker_is_agent :=
        ctx.role_info.speaker_is_agent || c.first_person_agent.contains token
      speaker_is_patient :=
        ctx.role_info.speaker_is_patient || c.first_person_patient.contains token
      speaker_is_experiencer :=
        ctx.role_info.speaker_is_experiencer ||
          c.first_person_experiencer.contains token
      hostile_address := ctx.role_info.hostile_address || hostile
      hostile_count :=
        ctx.role_info.hostile_count + (if hostile then 1 else 0) }
  let negs :=
    if !c.negation_words.contains token && tokLen token > 5 &&
        negSuffixes.any (fun suf => strSuffix suf token) then
      negs ++ [idx]
    else negs
  { negation_positions := negs
    intensifier_positions := ints
    diminisher_positions := dims
    connective_positions := conns
    role_info := role }

/-- `_analyze_linguistics(tokens)`. -/
def analyze_linguistics (c : Classifier) (tokens : List String) :
    LinguisticContext :=
  tokens.enum.foldl (fun ctx p => analyzeStep c ctx p.1 p.2)
    { negation_positions := []
      intensifier_positions := []
      diminisher_positions := []
      connective_positions := []
      role_info :=
        { speaker_is_agent := false
          speaker_is_patient := false
          speaker_is_experiencer := false
          hostile_address := false
          hostile_count := 0 } }

-- ===================================================================
-- Tier 2: _match_frames (classify.py:261-335)
-- ===================================================================

def MAX_PREFIX_DIFF : ℕ := 3

/-- The SPARQL `FILTER` of `_match_frames`: exact match or prefix in
either direction (`STRSTARTS(label, target) || STRSTARTS(target, label)`). -/
def triggerFilter (label token : String) : Bool :=
  label == token || strPrefix token label || strPrefix label token

/-- Candidate rows for one token: the query result plus the
length-constrained prefix test and the frame-table lookup
(`classify.py:298-325`). -/
def tokenMatches (c : Classifier) (idx : ℕ) (token : String) :
    List FrameMatch :=
  (c.triggers.filter (fun t => triggerFilter t.1 token)).filterMap
    (fun t =>
      let label_str := t.1
      let frame_name := t.2
      if label_str != token &&
          ((tokLen label_str : ℤ) - tokLen token).natAbs > MAX_PREFIX_DIFF then
        none
      else
        match alistGet c.frames_data frame_name with
        | none => none
        | some props =>
            some { token_idx := idx
                   token := token
                   matched_label := label_str
                   frame_name := frame_name
                   typicalEmotion := props.typicalEmotion
                   agentEmotion := props.agentEmotion
                   patientEmotion := props.patientEmotion
                   negatedEmotion := props.negatedEmotion
                   polarity := props.polarity
                   weight := props.weight })

/-- Whether Tier 2 skips this token: too short, or a modifier
(`classify.py:275-282`). -/
def skipToken (c : Classifier) (token : String) : Bool :=
  tokLen token < 3 ||
  c.negation_words.contains token ||
  alistMem c.intensifier_map token ||
  alistMem c.diminisher_map token ||
  alistMem c.connective_map token

/-- `raw_matches`: all candidate matches over all tokens. -/
def rawMatches (c : Classifier) (tokens : List String) : List FrameMatch :=
  tokens.enum.foldl
    (fun acc p =>
      if skipToken c p.2 then acc else acc ++ tokenMatches c p.1 p.2)
    []

/-- One step of the dedup loop at `classify.py:330-333`: keep, per
`(token_idx, frame_name)`, the match with the longest `matched_label`;
a Python dict keeps the first-insertion position on value update. -/
def dedupStep (best : List ((ℕ × String) × FrameMatch)) (m : FrameMatch) :
    List ((ℕ × String) × FrameMatch) :=
  let key : ℕ × String := (m.token_idx, m.frame_name)
  match best.find? (fun p => p.1 == key) with
  | none => best ++ [(key, m)]
  | some p =>
      if tokLen p.2.matched_label < tokLen m.matched_label then
        best.map (fun q => if q.1 == key then (key, m) else q)
      else best

/-- `_match_frames(tokens)`. -/
def match_frames (c : Classifier) (tokens : List String) : List FrameMatch :=
  ((rawMatches c tokens).foldl dedupStep []).map (fun p => p.2)

-- ===================================================================
-- Tier 3 helpers (classify.py:340-372)
-- ===================================================================

/-- `_is_negated(token_idx, negation_positions)`. -/
def is_negated (token_idx : ℕ) (negation_positions : List ℕ) : Bool :=
  negation_positions.any (fun n =>
    decide (((token_idx : ℤ) - n).natAbs ≤ NEGATION_WINDOW) && token_idx != n)

/-- `_get_intensifier_multiplier`: running `max` starting from `1.0`. -/
def get_intensifier_multiplier (token_idx : ℕ)
    (intensifier_positions : List (ℕ × ℚ)) : ℚ :=
  intensifier_positions.foldl
    (fun best p =>
      if decide (((token_idx : ℤ) - p.1).natAbs ≤ INTENSIFIER_WINDOW) &&
          token_idx != p.1 then
        max best p.2
      else best) 1

/-- `_get_diminisher_multiplier`: running `min` starting from `1.0`. -/
def get_diminisher_multiplier (token_idx : ℕ)
    (diminisher_positions : List (ℕ × ℚ)) : ℚ :=
  diminisher_positions.foldl
    (fun best p =>
      if decide (((token_idx : ℤ) - p.1).natAbs ≤ INTENSIFIER_WINDOW) &&
          token_idx != p.1 then
        min best p.2
      else best) 1

/-- `_get_discourse_weight`. -/
def get_discourse_weight (token_idx : ℕ)
    (connective_positions : List ConnPos) : ℚ :=
  connective_positions.foldl
    (fun weight conn =>
      if conn.ty == "contrastive" then
        if token_idx < conn.idx then weight * conn.pre_w
        else if token_idx > conn.idx then weight * conn.post_w
        else weight
      else weight) 1

-- ===================================================================
-- Tier 3: _infer_emotions (classify.py:374-460)
-- ===================================================================

/-- Step A of `_infer_emotions`: the role-selected base emotion. -/
def roleEmotion (m : FrameMatch) (role : RoleInfo) : String :=
  if role.speaker_is_patient then m.patientEmotion
  else if role.speaker_is_agent then m.agentEmotion
  else m.typicalEmotion

/-- Steps A and B of `_infer_emotions`: the emotion a match contributes,
after the strong-frame negation test. -/
def selectEmotion (m : FrameMatch) (role : RoleInfo)
    (negation_positions : List ℕ) : String :=
  if decide ((0.7 : ℚ) ≤ m.weight) && is_negated m.token_idx negation_positions
  then m.negatedEmotion
  else roleEmotion m role

/-- The weight after the intensifier and diminisher multiplications of
step C (`classify.py:422-434`), before the discourse multiplication. -/
def weightAfterModifiers (m : FrameMatch) (ints dims : List (ℕ × ℚ)) : ℚ :=
  m.weight * get_intensifier_multiplier m.token_idx ints
    * get_diminisher_multiplier m.token_idx dims

/-- Step C in full: the weight accumulated for a match. -/
def computeWeight (m : FrameMatch) (ctx : LinguisticContext) : ℚ :=
  weightAfterModifiers m ctx.intensifier_positions ctx.diminisher_positions
    * get_discourse_weight m.token_idx ctx.connective_positions

/-- `emotion_scores[e] = emotion_scores.get(e, 0.0) + w`, creating the
key at the end on first use, as Python dict insertion does. -/
def addScore (d : List (String × ℚ)) (k : String) (v : ℚ) :
    List (String × ℚ) :=
  if alistMem d k then
    d.map (fun p => if p.1 == k then (p.1, p.2 + v) else p)
  else d ++ [(k, v)]

/-- `matched_words[e].append(token)`, creating the key on first use. -/
def addWordToken (d : List (String × List String)) (k : String)
    (t : String) : List (String × List String) :=
  if alistMem d k then
    d.map (fun p => if p.1 == k then (p.1, p.2 ++ [t]) else p)
  else d ++ [(k, [t])]

/-- Explanation line for one match (string interpolation modelled). -/
def matchExplLine (m : FrameMatch) (negated : Bool) (emotion : String)
    (role_used : String) : String :=
  if negated then
    "\x27" ++ m.token ++ "\x27 [" ++ m.frame_name ++ "] negated -> " ++ emotion
  else
    "\x27" ++ m.token ++ "\x27 [" ++ m.frame_name ++ "] role=" ++ role_used
      ++ " -> " ++ emotion

/-- The `role_used` tag of step A. -/
def roleUsed (role : RoleInfo) : String :=
  if role.speaker_is_patient then "patient"
  else if role.speaker_is_agent then "agent"
  else "typical"

/-- Loop body of `_infer_emotions` for one match record. -/
def inferStep (ctx : LinguisticContext)
    (acc : List (String × ℚ) × List (String × List String) × List String)
    (m : FrameMatch) :
    List (String × ℚ) × List (String × List String) × List String :=
  let negated :=
    decide ((0.7 : ℚ) ≤ m.weight) && is_negated m.token_idx ctx.negation_positions
  let emotion := selectEmotion m ctx.role_info ctx.negation_positions
  let int_mult := get_intensifier_multiplier m.token_idx ctx.intensifier_positions
  let dim_mult := get_diminisher_multiplier m.token_idx ctx.diminisher_positions
  let disc_w := get_discourse_weight m.token_idx ctx.connective_positions
  let weight := computeWeight m ctx
  let expl := acc.2.2 ++ [matchExplLine m negated emotion (roleUsed ctx.role_info)]
  let expl :=
    if int_mult > 1 then expl ++ ["  intensifier boost x" ++ ratStr int_mult]
    else expl
  let expl :=
    if dim_mult < 1 then expl ++ ["  diminisher reduction x" ++ ratStr dim_mult]
    else expl
  let expl :=
    if disc_w != 1 then expl ++ ["  discourse weight x" ++ ratStr disc_w]
    else expl
  (addScore acc.1 emotion weight, addWordToken acc.2.1 emotion m.token, expl)

/-- `_infer_emotions(frame_matches, linguistic_context, tokens)`. -/
def infer_emotions (frame_matches : List FrameMatch)
    (ctx : LinguisticContext) :
    List (String × ℚ) × List (String × List String) × List String :=
  let acc := frame_matches.foldl (inferStep ctx) ([], [], [])
  if ctx.role_info.hostile_address then
    let hostile_signal := HOSTILE_ADDRESS_WEIGHT * ctx.role_info.hostile_count
    let words :=
      if alistMem acc.1 "Angry" then acc.2.1 else acc.2.1 ++ [("Angry", [])]
    (addScore acc.1 "Angry" hostile_signal, words,
      acc.2.2 ++
        ["Hostile address detected (" ++ toString ctx.role_info.hostile_count
          ++ "x) -> Angry +" ++ ratStr (round2 hostile_signal)])
  else acc

/-- `classify_ontology(text)`, from the token list on (the tokenizer is
the external `indic_tokenize.trivial_tokenize`). -/
def classify_ontology (c : Classifier) (tokens : List String) :
    List (String × ℚ) × List (String × List String) × List String :=
  infer_emotions (match_frames c tokens) (analyze_linguistics c tokens)

-- ===================================================================
-- ML fallback: classify_ml (classify.py:492-515)
-- ===================================================================

/-- `np.dot` on the modelled vectors. -/
def dotp (a b : List ℚ) : ℚ := (List.zipWith (· * ·) a b).sum

/-- `classify_ml(text)`, receiving the normalised embedding of the text
(the opaque `model.encode` plus L2 normalisation). -/
def classify_ml (c : Classifier) (embedding : List ℚ) : String × ℚ :=
  if !c.model_available || c.centroids.isEmpty then ("Unknown", 0)
  else
    let best := c.centroids.foldl
      (fun (best : String × ℚ) p =>
        if p.1 == "Neutral" then best
        else
          let score := dotp embedding p.2
          if best.2 < score then (p.1, score) else best)
      ("Neutral", -1)
    if best.2 < 0.25 then ("Neutral", round4 best.2)
    else (best.1, round4 best.2)

-- ===================================================================
-- Hybrid prediction: predict (classify.py:520-584)
-- ===================================================================

/-- Stable insertion of one scored emotion into a descending list:
the element goes before the first strictly-smaller score, so equal
scores keep their original relative order, as Python's stable
`sorted(..., key=score, reverse=True)` does. -/
def insertDesc (x : String × ℚ) : List (String × ℚ) → List (String × ℚ)
  | [] => [x]
  | y :: ys => if y.2 ≤ x.2 then x :: y :: ys else y :: insertDesc x ys

/-- `sorted(emotion_scores.items(), key=lambda x: x[1], reverse=True)`. -/
def sortDesc (l : List (String × ℚ)) : List (String × ℚ) :=
  l.foldr insertDesc []

def mlNoMatchTag : String := "ML (LaBSE) - No Ontology Match"

def conflictTagPrefix : String := "ML (LaBSE) - Frame Conflict "

/-- Rendering of `dict(sorted_emotions)` inside the conflict tag
(Python repr of a float dict; digits modelled via `ratStr`). -/
def renderScores (l : List (String × ℚ)) : String :=
  "\x7b" ++
    String.intercalate ", "
      (l.map (fun p => "\x27" ++ p.1 ++ "\x27: " ++ ratStr p.2)) ++
  "\x7d"

def ontologySingleTag (k : ℕ) : String :=
  "Ontology (Frame-based, " ++ toString k ++ " triggers)"

def ontologyDominantTag (top : String) (ts : ℚ) (second : String) (ss : ℚ) :
    String :=
  "Ontology (Frame-based, dominant: " ++ top ++ "=" ++ ratStr (round2 ts)
    ++ " vs " ++ second ++ "=" ++ ratStr (round2 ss) ++ ")"

/-- `predict(text)`, from the token list and the normalised embedding on. -/
def predict (c : Classifier) (embedding : List ℚ) (tokens : List String) :
    ClassificationResult :=
  let r := classify_ontology c tokens
  let emotion_scores := r.1
  let matched_words := r.2.1
  let explanation := r.2.2
  match emotion_scores with
  | [] =>
      let ml := classify_ml c embedding
      { label := ml.1
        confidence := ml.2
        method := mlNoMatchTag
        matched_words := []
        explanation := ["No frames matched -> fallback to ML"] }
  | [(emotion, total_weight)] =>
      let confidence := max (min (round4 (total_weight / 2)) 1) 0.5
      { label := emotion
        confidence := confidence
        method :=
          ontologySingleTag ((alistGet matched_words emotion).getD []).length
        matched_words := matched_words
        explanation := explanation }
  | _ :: _ :: _ =>
      let sorted_emotions := sortDesc emotion_scores
      let top := sorted_emotions.headD ("", 0)
      let second := (sorted_emotions.drop 1).headD ("", 0)
      if decide (0 < top.2) &&
          (second.2 == 0 || decide ((2 : ℚ) ≤ top.2 / second.2)) then
        { label := top.1
          confidence := min (round4 (top.2 / (top.2 + second.2))) 1
          method := ontologyDominantTag top.1 top.2 second.1 second.2
          matched_words := matched_words
          explanation := explanation }
      else
        let ml := classify_ml c embedding
        { label := ml.1
          confidence := ml.2
          method := conflictTagPrefix ++ renderScores sorted_emotions
          matched_words := matched_words
          explanation :=
            explanation ++
              ["Frame conflict: " ++ renderScores sorted_emotions
                ++ " -> fallback to ML"] }

-- ===================================================================
-- Concrete knowledge-base fixtures used by witnesses / counterexamples
-- ===================================================================

/-- A strongly weighted positive frame (`weight 1 ≥ 0.7`). -/
def happyFrame : FrameProps :=
  { typicalEmotion := "Happy", agentEmotion := "Happy"
    patientEmotion := "Happy", negatedEmotion := "Sad"
    polarity := "positive", weight := 1 }

/-- A strongly weighted negative frame. -/
def sadFrame : FrameProps :=
  { typicalEmotion := "Sad", agentEmotion := "Sad"
    patientEmotion := "Sad", negatedEmotion := "Happy"
    polarity := "negative", weight := 1 }

/-- A small classifier instance: two frames, one modifier of each kind,
one hostile pronoun, a model with only a Neutral centroid. -/
def testC : Classifier :=
  { negation_words := ["naeh"]
    intensifier_map := [("veryx", 2)]
    diminisher_map := [("slight", 1)]
    connective_map := [("butxx", ("contrastive", 3, 2))]
    hostile_words := ["thoo"]
    first_person_agent := []
    first_person_patient := []
    first_person_experiencer := []
    triggers := [("joyful", "HappyFrame"), ("sorrow", "SadFrame")]
    frames_data := [("HappyFrame", happyFrame), ("SadFrame", sadFrame)]
    centroids := [("Neutral", [1])]
    model_available := true }


/-- A classifier with no knowledge base at all, only the (degenerate)
centroid table containing the Neutral centroid: the ontology tier can
never match and the ML loop never updates `best_score`. -/
def mlOnlyC : Classifier :=
  { negation_words := []
    intensifier_map := []
    diminisher_map := []
    connective_map := []
    hostile_words := []
    first_person_agent := []
    first_person_patient := []
    first_person_experiencer := []
    triggers := []
    frames_data := []
    centroids := [("Neutral", [1])]
    model_available := true }

-- ===================================================================
-- Rounding bounds
-- ===================================================================

lemma round_mono_rat {x y : ℚ} (h : x ≤ y) : round x ≤ round y := by
  rw [round_eq, round_eq]
  exact Int.floor_le_floor (by linarith)

lemma round4_le_one {x : ℚ} (h : x ≤ 1) : round4 x ≤ 1 := by
  have h1 : round (x * 10000) ≤ round ((10000 : ℚ)) :=
    round_mono_rat (by linarith)
  have h2 : round ((10000 : ℚ)) = 10000 := by norm_num
  rw [round4]
  rw [div_le_one (by norm_num)]
  exact_mod_cast h1.trans_eq h2

lemma neg_one_le_round4 {x : ℚ} (h : -1 ≤ x) : -1 ≤ round4 x := by
  have h1 : round ((-10000 : ℚ)) ≤ round (x * 10000) :=
    round_mono_rat (by linarith)
  have h2 : round ((-10000 : ℚ)) = -10000 := by
    rw [show ((-10000 : ℚ)) = ((-10000 : ℤ) : ℚ) by norm_num, round_intCast]
  rw [round4, le_div_iff₀ (by norm_num)]
  have := h2 ▸ h1
  exact_mod_cast this

lemma round4_nonneg {x : ℚ} (h : 0 ≤ x) : 0 ≤ round4 x := by
  have h1 : round ((0 : ℚ)) ≤ round (x * 10000) :=
    round_mono_rat (by linarith)
  rw [round_zero] at h1
  rw [round4]
  have : (0 : ℚ) ≤ (round (x * 10000) : ℤ) := by exact_mod_cast h1
  positivity

-- ===================================================================
-- Unfolding lemmas for the three predict branches
-- ===================================================================

/-- The dominance test of `predict` (classify.py:564), as a proposition. -/
abbrev dominanceCond (top second : String × ℚ) : Prop :=
  0 < top.2 ∧ (second.2 = 0 ∨ (2 : ℚ) ≤ top.2 / second.2)

lemma predict_empty (c : Classifier) (emb : List ℚ) (tokens : List String)
    (h : (classify_ontology c tokens).1 = []) :
    predict c emb tokens =
      { label := (classify_ml c emb).1
        confidence := (classify_ml c emb).2
        method := mlNoMatchTag
        matched_words := []
        explanation := ["No frames matched -> fallback to ML"] } := by
  simp only [predict]
  rw [h]

lemma predict_one (c : Classifier) (emb : List ℚ) (tokens : List String)
    (e : String) (w : ℚ)
    (h : (classify_ontology c tokens).1 = [(e, w)]) :
    predict c emb tokens =
      { label := e
        confidence := max (min (round4 (w / 2)) 1) 0.5
        method := ontologySingleTag
          ((alistGet (classify_ontology c tokens).2.1 e).getD []).length
        matched_words := (classify_ontology c tokens).2.1
        explanation := (classify_ontology c tokens).2.2 } := by
  simp only [predict]
  rw [h]

lemma predict_multi_dom (c : Classifier) (emb : List ℚ) (tokens : List String)
    (a b : String × ℚ) (rest : List (String × ℚ))
    (h : (classify_ontology c tokens).1 = a :: b :: rest)
    (hc : dominanceCond ((sortDesc (a :: b :: rest)).headD ("", 0))
            (((sortDesc (a :: b :: rest)).drop 1).headD ("", 0))) :
    predict c emb tokens =
      { label := ((sortDesc (a :: b :: rest)).headD ("", 0)).1
        confidence :=
          min (round4 (((sortDesc (a :: b :: rest)).headD ("", 0)).2 /
            (((sortDesc (a :: b :: rest)).headD ("", 0)).2 +
              (((sortDesc (a :: b :: rest)).drop 1).headD ("", 0)).2))) 1
        method := ontologyDominantTag
          ((sortDesc (a :: b :: rest)).headD ("", 0)).1
          ((sortDesc (a :: b :: rest)).headD ("", 0)).2
          (((sortDesc (a :: b :: rest)).drop 1).headD ("", 0)).1
          (((sortDesc (a :: b :: rest)).drop 1).headD ("", 0)).2
        matched_words := (classify_ontology c tokens).2.1
        explanation := (classify_ontology c tokens).2.2 } := by
  simp only [predict]
  rw [h]
  simp only []
  rw [if_pos]
  simp only [Bool.and_eq_true, Bool.or_eq_true, decide_eq_true_eq, beq_iff_eq]
  exact ⟨hc.1, hc.2⟩

lemma predict_multi_conflict (c : Classifier) (emb : List ℚ)
    (tokens : List String) (a b : String × ℚ) (rest : List (String × ℚ))
    (h : (classify_ontology c tokens).1 = a :: b :: rest)
    (hc : ¬ dominanceCond ((sortDesc (a :: b :: rest)).headD ("", 0))
            (((sortDesc (a :: b :: rest)).drop 1).headD ("", 0))) :
    predict c emb tokens =
      { label := (classify_ml c emb).1
        confidence := (classify_ml c emb).2
        method := conflictTagPrefix ++ renderScores (sortDesc (a :: b :: rest))
        matched_words := (classify_ontology c tokens).2.1
        explanation := (classify_ontology c tokens).2.2 ++
          ["Frame conflict: " ++ renderScores (sortDesc (a :: b :: rest))
            ++ " -> fallback to ML"] } := by
  simp only [predict]
  rw [h]
  simp only []
  rw [if_neg]
  simp only [Bool.and_eq_true, Bool.or_eq_true, decide_eq_true_eq, beq_iff_eq]
  exact fun hcc => hc ⟨hcc.1, hcc.2⟩

-- ===================================================================
-- C3: negation flip
-- ===================================================================

/-- A role context with no first-person marker and no hostile address. -/
def role0 : RoleInfo :=
  { speaker_is_agent := false, speaker_is_patient := false
    speaker_is_experiencer := false, hostile_address := false
    hostile_count := 0 }

/-- A strong frame whose negated emotion coincides with its typical
emotion: grieving negated is still Sad here. -/
def mSelfNeg : FrameMatch :=
  { token_idx := 0, token := "sorrow", matched_label := "sorrow"
    frame_name := "GriefFrame"
    typicalEmotion := "Sad", agentEmotion := "Sad", patientEmotion := "Sad"
    negatedEmotion := "Sad", polarity := "negative", weight := 0.8 }

/-- A weak frame (weight 0.5 < 0.7). -/
def mWeak : FrameMatch :=
  { token_idx := 0, token := "sooth", matched_label := "sooth"
    frame_name := "CalmFrame"
    typicalEmotion := "Happy", agentEmotion := "Happy"
    patientEmotion := "Happy", negatedEmotion := "Sad"
    polarity := "positive", weight := 0.5 }

/-- C3 counterexample: for a strong match whose `negatedEmotion` equals
its role-selected emotion, the contributed emotion equals
`negatedEmotion` although no negation position exists, so the claimed
"if and only if" fails in the right-to-left direction. -/
theorem C3_counterexample :
    (0.7 : ℚ) ≤ mSelfNeg.weight ∧
    selectEmotion mSelfNeg role0 [] = mSelfNeg.negatedEmotion ∧
    is_negated mSelfNeg.token_idx [] = false := by
  refine ⟨by norm_num [mSelfNeg], ?_, by rfl⟩
  simp [selectEmotion, is_negated, roleEmotion, mSelfNeg]

/-- C3 (amended): for a strong match (weight ≥ 0.7) the contributed
emotion is `negatedEmotion` exactly when the negation window test
fires, and otherwise the role-selected emotion; a weak match
(weight < 0.7) always contributes the role-selected emotion, so
negation positions never change it. -/
theorem C3_negation_flip (m : FrameMatch) (role : RoleInfo)
    (negs : List ℕ) :
    selectEmotion m role negs =
      (if (0.7 : ℚ) ≤ m.weight ∧ is_negated m.token_idx negs = true
       then m.negatedEmotion else roleEmotion m role) ∧
    (m.weight < 0.7 → selectEmotion m role negs = roleEmotion m role) := by
  constructor
  · simp only [selectEmotion, Bool.and_eq_true, decide_eq_true_eq]
  · intro hlt
    simp only [selectEmotion, decide_eq_false (not_le.mpr hlt),
      Bool.false_and, Bool.false_eq_true, if_false]

/-- Witness for C3: a weak match next to a negation particle keeps its
role emotion. -/
theorem C3_negation_flip_witness :
    selectEmotion mWeak role0 [1] = roleEmotion mWeak role0 :=
  (C3_negation_flip mWeak role0 [1]).2 (by norm_num [mWeak])

-- ===================================================================
-- C6: discourse multiplier
-- ===================================================================

/-- The per-connective multiplier the claim describes: `pre_weight`
strictly before a contrastive connective, `post_weight` strictly
after it, and 1 at the connective itself or for any other type. -/
def discourseFactor (i : ℕ) (conn : ConnPos) : ℚ :=
  if conn.ty = "contrastive" then
    if i < conn.idx then conn.pre_w
    else if conn.idx < i then conn.post_w
    else 1
  else 1

lemma get_discourse_weight_scale (i : ℕ) :
    ∀ (conns : List ConnPos) (w : ℚ),
      conns.foldl
        (fun weight conn =>
          if conn.ty == "contrastive" then
            if i < conn.idx then weight * conn.pre_w
            else if i > conn.idx then weight * conn.post_w
            else weight
          else weight) w = w * get_discourse_weight i conns := by
  intro conns
  induction conns with
  | nil => intro w; simp [get_discourse_weight]
  | cons cn cs ih =>
    intro w
    simp only [get_discourse_weight, List.foldl_cons]
    rw [ih, ih]
    by_cases h1 : cn.ty = "contrastive"
    · simp only [h1, beq_self_eq_true, if_true]
      by_cases h2 : i < cn.idx
      · simp [h2]; ring
      · by_cases h3 : i > cn.idx
        · simp [h2, h3]; ring
        · simp [h2, h3]
    · simp [h1]

/-- C6: the discourse weight applied to a match at token index `i` is the
product, over all recorded connectives, of: `pre_weight` for a
contrastive connective strictly after `i`, `post_weight` for one
strictly before `i`, and 1 for the connective's own position or for any
non-contrastive type. -/
theorem C6_discourse_multiplier (i : ℕ) (conns : List ConnPos) :
    get_discourse_weight i conns = (conns.map (discourseFactor i)).prod := by
  induction conns with
  | nil => simp [get_discourse_weight]
  | cons cn cs ih =>
    simp only [get_discourse_weight, List.foldl_cons, List.map_cons,
      List.prod_cons]
    rw [get_discourse_weight_scale, ih]
    have hfac :
        (if cn.ty == "contrastive" then
          if i < cn.idx then 1 * cn.pre_w
          else if i > cn.idx then 1 * cn.post_w
          else (1 : ℚ)
        else 1) = discourseFactor i cn := by
      simp only [discourseFactor, beq_iff_eq, one_mul, gt_iff_lt]
    rw [hfac]

-- ===================================================================
-- C2: single-emotion ontology path
-- ===================================================================

lemma ontologySingleTag_split (k : ℕ) :
    ontologySingleTag k =
      "Ontology" ++ (" (Frame-based, " ++ (toString k ++ " triggers)")) := by
  show ("Ontology" ++ " (Frame-based, ") ++ toString k ++ " triggers)" = _
  rw [String.append_assoc, String.append_assoc]

/-- C2: when Tier 3 yields exactly one emotion `e` with total weight
`w`, `predict` returns `e`, confidence `round(w/2, 4)` clamped into
`[0.5, 1.0]`, and a method string starting with "Ontology". -/
theorem C2_single_emotion (c : Classifier) (emb : List ℚ)
    (tokens : List String) (e : String) (w : ℚ)
    (h : (classify_ontology c tokens).1 = [(e, w)]) :
    (predict c emb tokens).label = e ∧
    (predict c emb tokens).confidence = max (min (round4 (w / 2)) 1) 0.5 ∧
    ∃ r, (predict c emb tokens).method = "Ontology" ++ r := by
  rw [predict_one c emb tokens e w h]
  exact ⟨rfl, rfl, _, ontologySingleTag_split _⟩

/-- Witness for C2 at a concrete one-trigger input. -/
theorem C2_single_emotion_witness :
    (classify_ontology testC ["joyful"]).1 = [("Happy", 1)] ∧
    ((predict testC [0] ["joyful"]).label = "Happy" ∧
     (predict testC [0] ["joyful"]).confidence =
       max (min (round4 ((1 : ℚ) / 2)) 1) 0.5 ∧
     ∃ r, (predict testC [0] ["joyful"]).method = "Ontology" ++ r) := by
  have h : (classify_ontology testC ["joyful"]).1 = [("Happy", 1)] := by
    have h1 : skipToken testC "joyful" = false := by decide
    have h2 : triggerFilter "joyful" "joyful" = true := by decide
    have h3 : triggerFilter "sorrow" "joyful" = false := by decide
    have h4 : analyze_linguistics testC ["joyful"] =
        { negation_positions := [], intensifier_positions := []
          diminisher_positions := [], connective_positions := []
          role_info := role0 } := by decide
    have hTrig : testC.triggers =
        [("joyful", "HappyFrame"), ("sorrow", "SadFrame")] := rfl
    have hFr : testC.frames_data =
        [("HappyFrame", happyFrame), ("SadFrame", sadFrame)] := rfl
    norm_num [classify_ontology, infer_emotions, inferStep, match_frames,
      rawMatches, tokenMatches, dedupStep, h1, h2, h3, h4, hTrig, hFr,
      alistGet, alistMem, happyFrame, sadFrame, role0, is_negated,
      selectEmotion, roleEmotion, computeWeight, weightAfterModifiers,
      get_intensifier_multiplier, get_diminisher_multiplier,
      get_discourse_weight, addScore, addWordToken, List.enum,
      List.enumFrom, List.filterMap, List.foldl, List.find?, List.filter,
      Option.map, matchExplLine, roleUsed]
  exact ⟨h, C2_single_emotion testC [0] ["joyful"] "Happy" 1 h⟩

-- ===================================================================
-- C9: ML method tags
-- ===================================================================

/-- C9 counterexample: on an input with no ontology match the method
tag is "ML (LaBSE) - No Ontology Match", not the claimed
"ML - No Ontology Match". -/
theorem C9_counterexample :
    (classify_ontology mlOnlyC []).1 = [] ∧
    (predict mlOnlyC [] []).method ≠ "ML - No Ontology Match" := by
  constructor
  · decide
  · rw [predict_empty mlOnlyC [] [] (by decide)]
    decide

/-- C9 (amended): with empty Tier-3 scores the method tag is exactly
"ML (LaBSE) - No Ontology Match"; with several emotions and no dominant
one it starts with "ML (LaBSE) - Frame Conflict ". -/
theorem C9_ml_method_tags (c : Classifier) (emb : List ℚ)
    (tokens : List String) :
    ((classify_ontology c tokens).1 = [] →
      (predict c emb tokens).method = "ML (LaBSE) - No Ontology Match") ∧
    (∀ (a b : String × ℚ) (rest : List (String × ℚ)),
      (classify_ontology c tokens).1 = a :: b :: rest →
      ¬ dominanceCond ((sortDesc (a :: b :: rest)).headD ("", 0))
          (((sortDesc (a :: b :: rest)).drop 1).headD ("", 0)) →
      ∃ r, (predict c emb tokens).method =
        "ML (LaBSE) - Frame Conflict " ++ r) := by
  constructor
  · intro h
    rw [predict_empty c emb tokens h]
    rfl
  · intro a b rest h hc
    rw [predict_multi_conflict c emb tokens a b rest h hc]
    exact ⟨renderScores (sortDesc (a :: b :: rest)), rfl⟩

/-- Witness for C9: the no-match tag on an empty input, and the
conflict prefix on a balanced Happy/Sad input. -/
theorem C9_ml_method_tags_witness :
    (predict mlOnlyC [] []).method = "ML (LaBSE) - No Ontology Match" ∧
    ∃ r, (predict testC [0] ["joyful", "sorrow"]).method =
      "ML (LaBSE) - Frame Conflict " ++ r := by
  constructor
  · exact (C9_ml_method_tags mlOnlyC [] []).1 (by decide)
  · have h : (classify_ontology testC ["joyful", "sorrow"]).1 =
        [("Happy", 1), ("Sad", 1)] := by
      have h1 : skipToken testC "joyful" = false := by decide
      have h1s : skipToken testC "sorrow" = false := by decide
      have h2 : triggerFilter "joyful" "joyful" = true := by decide
      have h3 : triggerFilter "sorrow" "joyful" = false := by decide
      have h2s : triggerFilter "joyful" "sorrow" = false := by decide
      have h3s : triggerFilter "sorrow" "sorrow" = true := by decide
      have h4 : analyze_linguistics testC ["joyful", "sorrow"] =
          { negation_positions := [], intensifier_positions := []
            diminisher_positions := [], connective_positions := []
            role_info := role0 } := by decide
      have hTrig : testC.triggers =
          [("joyful", "HappyFrame"), ("sorrow", "SadFrame")] := rfl
      have hFr : testC.frames_data =
          [("HappyFrame", happyFrame), ("SadFrame", sadFrame)] := rfl
      norm_num [classify_ontology, infer_emotions, inferStep, match_frames,
        rawMatches, tokenMatches, dedupStep, h1, h1s, h2, h3, h2s, h3s, h4,
        hTrig, hFr, alistGet, alistMem, happyFrame, sadFrame, role0,
        is_negated, selectEmotion, roleEmotion, computeWeight,
        weightAfterModifiers, get_intensifier_multiplier,
        get_diminisher_multiplier, get_discourse_weight, addScore,
        addWordToken, List.enum, List.enumFrom, List.filterMap, List.foldl,
        List.find?, List.filter, Option.map, matchExplLine, roleUsed]
      decide
    refine (C9_ml_method_tags testC [0] ["joyful", "sorrow"]).2
      ("Happy", 1) ("Sad", 1) [] h ?_
    norm_num [sortDesc, insertDesc, dominanceCond]

-- ===================================================================
-- C10: hostile address with no frame match
-- ===================================================================

/-- C10: hostile-address tokens with no frame matches drive the
single-emotion Ontology path: label Angry, `matched_words` maps Angry
to the empty word list, and the method reports zero triggers. -/
theorem C10_hostile_no_frames (c : Classifier) (emb : List ℚ)
    (tokens : List String)
    (hm : match_frames c tokens = [])
    (hh : (analyze_linguistics c tokens).role_info.hostile_address = true) :
    (predict c emb tokens).label = "Angry" ∧
    (predict c emb tokens).matched_words = [("Angry", [])] ∧
    (predict c emb tokens).method = "Ontology (Frame-based, 0 triggers)" := by
  have hco : classify_ontology c tokens =
      ([("Angry", HOSTILE_ADDRESS_WEIGHT *
          (analyze_linguistics c tokens).role_info.hostile_count)],
       [("Angry", [])],
       ["Hostile address detected (" ++
          toString (analyze_linguistics c tokens).role_info.hostile_count ++
          "x) -> Angry +" ++
          ratStr (round2 (HOSTILE_ADDRESS_WEIGHT *
            (analyze_linguistics c tokens).role_info.hostile_count))]) := by
    simp [classify_ontology, hm, infer_emotions, hh, addScore, alistMem]
  have h1 : (classify_ontology c tokens).1 =
      [("Angry", HOSTILE_ADDRESS_WEIGHT *
        (analyze_linguistics c tokens).role_info.hostile_count)] := by
    rw [hco]
  rw [predict_one c emb tokens "Angry" _ h1]
  refine ⟨rfl, ?_, ?_⟩
  · show (classify_ontology c tokens).2.1 = [("Angry", [])]
    rw [hco]
  · show ontologySingleTag
        ((alistGet (classify_ontology c tokens).2.1 "Angry").getD []).length =
      "Ontology (Frame-based, 0 triggers)"
    rw [hco]
    simp only [alistGet, List.find?, beq_self_eq_true, Option.map_some,
      Option.getD_some, List.length_nil]
    rfl

/-- Witness for C10: a lone hostile pronoun. -/
theorem C10_hostile_no_frames_witness :
    match_frames testC ["thoo"] = [] ∧
    ((predict testC [0] ["thoo"]).label = "Angry" ∧
     (predict testC [0] ["thoo"]).matched_words = [("Angry", [])] ∧
     (predict testC [0] ["thoo"]).method =
       "Ontology (Frame-based, 0 triggers)") := by
  have hm : match_frames testC ["thoo"] = [] := by decide
  exact ⟨hm, C10_hostile_no_frames testC [0] ["thoo"] hm (by decide)⟩

-- ===================================================================
-- C4: multi-emotion dominance
-- ===================================================================

/-- C4: with two or more scored emotions, let `top` and `second` be the
first two entries after the stable descending sort. If the dominance
test `t_top > 0 ∧ (t_2 = 0 ∨ t_top / t_2 ≥ 2)` holds, `predict`
returns the top emotion with confidence
`min(round(t_top / (t_top + t_2), 4), 1)`; otherwise it delegates label
and confidence to the ML fallback. -/
theorem C4_dominance (c : Classifier) (emb : List ℚ) (tokens : List String)
    (a b : String × ℚ) (rest : List (String × ℚ))
    (h : (classify_ontology c tokens).1 = a :: b :: rest) :
    (dominanceCond ((sortDesc (a :: b :: rest)).headD ("", 0))
        (((sortDesc (a :: b :: rest)).drop 1).headD ("", 0)) →
      (predict c emb tokens).label =
        ((sortDesc (a :: b :: rest)).headD ("", 0)).1 ∧
      (predict c emb tokens).confidence =
        min (round4 (((sortDesc (a :: b :: rest)).headD ("", 0)).2 /
          (((sortDesc (a :: b :: rest)).headD ("", 0)).2 +
            (((sortDesc (a :: b :: rest)).drop 1).headD ("", 0)).2))) 1) ∧
    (¬ dominanceCond ((sortDesc (a :: b :: rest)).headD ("", 0))
        (((sortDesc (a :: b :: rest)).drop 1).headD ("", 0)) →
      (predict c emb tokens).label = (classify_ml c emb).1 ∧
      (predict c emb tokens).confidence = (classify_ml c emb).2) := by
  constructor
  · intro hc
    rw [predict_multi_dom c emb tokens a b rest h hc]
    exact ⟨rfl, rfl⟩
  · intro hc
    rw [predict_multi_conflict c emb tokens a b rest h hc]
    exact ⟨rfl, rfl⟩

/-- Witness for C4: two Happy triggers against one Sad trigger give a
2:1 dominant Happy with confidence `round(2/3, 4)`. -/
theorem C4_dominance_witness :
    dominanceCond ((sortDesc [("Happy", (2 : ℚ)), ("Sad", 1)]).headD ("", 0))
        (((sortDesc [("Happy", (2 : ℚ)), ("Sad", 1)]).drop 1).headD ("", 0)) ∧
    (predict testC [0] ["joyful", "joyful", "sorrow"]).label =
      ((sortDesc [("Happy", (2 : ℚ)), ("Sad", 1)]).headD ("", 0)).1 ∧
    (predict testC [0] ["joyful", "joyful", "sorrow"]).confidence =
      min (round4 (((sortDesc [("Happy", (2 : ℚ)), ("Sad", 1)]).headD ("", 0)).2 /
        (((sortDesc [("Happy", (2 : ℚ)), ("Sad", 1)]).headD ("", 0)).2 +
          (((sortDesc [("Happy", (2 : ℚ)), ("Sad", 1)]).drop 1).headD ("", 0)).2))) 1 := by
  have h : (classify_ontology testC ["joyful", "joyful", "sorrow"]).1 =
      [("Happy", 2), ("Sad", 1)] := by
    have h1 : skipToken testC "joyful" = false := by decide
    have h1s : skipToken testC "sorrow" = false := by decide
    have h2 : triggerFilter "joyful" "joyful" = true := by decide
    have h3 : triggerFilter "sorrow" "joyful" = false := by decide
    have h2s : triggerFilter "joyful" "sorrow" = false := by decide
    have h3s : triggerFilter "sorrow" "sorrow" = true := by decide
    have h4 : analyze_linguistics testC ["joyful", "joyful", "sorrow"] =
        { negation_positions := [], intensifier_positions := []
          diminisher_positions := [], connective_positions := []
          role_info := role0 } := by decide
    have hTrig : testC.triggers =
        [("joyful", "HappyFrame"), ("sorrow", "SadFrame")] := rfl
    have hFr : testC.frames_data =
        [("HappyFrame", happyFrame), ("SadFrame", sadFrame)] := rfl
    norm_num [classify_ontology, infer_emotions, inferStep, match_frames,
      rawMatches, tokenMatches, dedupStep, h1, h1s, h2, h3, h2s, h3s, h4,
      hTrig, hFr, alistGet, alistMem, happyFrame, sadFrame, role0,
      is_negated, selectEmotion, roleEmotion, computeWeight,
      weightAfterModifiers, get_intensifier_multiplier,
      get_diminisher_multiplier, get_discourse_weight, addScore,
      addWordToken, List.enum, List.enumFrom, List.filterMap, List.foldl,
      List.find?, List.filter, Option.map, matchExplLine, roleUsed]
    decide
  have hc : dominanceCond
      ((sortDesc [("Happy", (2 : ℚ)), ("Sad", 1)]).headD ("", 0))
      (((sortDesc [("Happy", (2 : ℚ)), ("Sad", 1)]).drop 1).headD ("", 0)) := by
    norm_num [sortDesc, insertDesc, dominanceCond]
  exact ⟨hc, (C4_dominance testC [0] ["joyful", "joyful", "sorrow"]
    ("Happy", 2) ("Sad", 1) [] h).1 hc⟩

-- ===================================================================
-- C7: intensifier / diminisher multipliers
-- ===================================================================

/-- The multiplier as the claim words it: the maximum intensifier
multiplier among positions within window 3 of the token (its own index
excluded), defaulting to 1 when no position is in the window. -/
def specIntensifierMult (i : ℕ) (ints : List (ℕ × ℚ)) : ℚ :=
  match (ints.filter (fun p =>
      decide (((i : ℤ) - p.1).natAbs ≤ INTENSIFIER_WINDOW) && i != p.1)).map
      (fun p => p.2) with
  | [] => 1
  | w :: ws => ws.foldl max w

/-- The minimum diminisher multiplier among in-window positions,
defaulting to 1 when none. -/
def specDiminisherMult (i : ℕ) (dims : List (ℕ × ℚ)) : ℚ :=
  match (dims.filter (fun p =>
      decide (((i : ℤ) - p.1).natAbs ≤ INTENSIFIER_WINDOW) && i != p.1)).map
      (fun p => p.2) with
  | [] => 1
  | w :: ws => ws.foldl min w

lemma get_intensifier_eq_foldl (i : ℕ) (ints : List (ℕ × ℚ)) :
    get_intensifier_multiplier i ints =
      ((ints.filter (fun p =>
        decide (((i : ℤ) - p.1).natAbs ≤ INTENSIFIER_WINDOW) && i != p.1)).map
        (fun p => p.2)).foldl max 1 := by
  unfold get_intensifier_multiplier
  generalize (1 : ℚ) = b
  induction ints generalizing b with
  | nil => simp
  | cons p l ih =>
    cases hc : (decide (((i : ℤ) - p.1).natAbs ≤ INTENSIFIER_WINDOW) && i != p.1) with
    | true =>
      simp only [List.foldl_cons, List.filter_cons, hc, eq_self_iff_true,
        if_true, List.map_cons]
      exact ih _
    | false =>
      simp only [List.foldl_cons, List.filter_cons, hc, Bool.false_eq_true,
        if_false]
      exact ih _

lemma get_diminisher_eq_foldl (i : ℕ) (dims : List (ℕ × ℚ)) :
    get_diminisher_multiplier i dims =
      ((dims.filter (fun p =>
        decide (((i : ℤ) - p.1).natAbs ≤ INTENSIFIER_WINDOW) && i != p.1)).map
        (fun p => p.2)).foldl min 1 := by
  unfold get_diminisher_multiplier
  generalize (1 : ℚ) = b
  induction dims generalizing b with
  | nil => simp
  | cons p l ih =>
    cases hc : (decide (((i : ℤ) - p.1).natAbs ≤ INTENSIFIER_WINDOW) && i != p.1) with
    | true =>
      simp only [List.foldl_cons, List.filter_cons, hc, eq_self_iff_true,
        if_true, List.map_cons]
      exact ih _
    | false =>
      simp only [List.foldl_cons, List.filter_cons, hc, Bool.false_eq_true,
        if_false]
      exact ih _

lemma get_intensifier_eq_spec (i : ℕ) (ints : List (ℕ × ℚ))
    (hi : ∀ p ∈ ints, (1 : ℚ) ≤ p.2) :
    get_intensifier_multiplier i ints = specIntensifierMult i ints := by
  rw [get_intensifier_eq_foldl]
  cases hl : (ints.filter (fun p =>
      decide (((i : ℤ) - p.1).natAbs ≤ INTENSIFIER_WINDOW) && i != p.1)).map
      (fun p => p.2) with
  | nil => simp [specIntensifierMult, hl]
  | cons w ws =>
    have hw : (1 : ℚ) ≤ w := by
      have hmem : w ∈ (ints.filter (fun p =>
          decide (((i : ℤ) - p.1).natAbs ≤ INTENSIFIER_WINDOW) && i != p.1)).map
          (fun p => p.2) := hl ▸ List.mem_cons_self w ws
      obtain ⟨p, hp, hpe⟩ := List.mem_map.1 hmem
      exact hpe ▸ hi p (List.mem_of_mem_filter hp)
    simp only [specIntensifierMult, hl, List.foldl_cons]
    rw [max_eq_right hw]

lemma get_diminisher_eq_spec (i : ℕ) (dims : List (ℕ × ℚ))
    (hd : ∀ p ∈ dims, p.2 ≤ (1 : ℚ)) :
    get_diminisher_multiplier i dims = specDiminisherMult i dims := by
  rw [get_diminisher_eq_foldl]
  cases hl : (dims.filter (fun p =>
      decide (((i : ℤ) - p.1).natAbs ≤ INTENSIFIER_WINDOW) && i != p.1)).map
      (fun p => p.2) with
  | nil => simp [specDiminisherMult, hl]
  | cons w ws =>
    have hw : w ≤ (1 : ℚ) := by
      have hmem : w ∈ (dims.filter (fun p =>
          decide (((i : ℤ) - p.1).natAbs ≤ INTENSIFIER_WINDOW) && i != p.1)).map
          (fun p => p.2) := hl ▸ List.mem_cons_self w ws
      obtain ⟨p, hp, hpe⟩ := List.mem_map.1 hmem
      exact hpe ▸ hd p (List.mem_of_mem_filter hp)
    simp only [specDiminisherMult, hl, List.foldl_cons]
    rw [min_eq_right hw]

/-- C7: with intensifier multipliers ≥ 1 and diminisher multipliers ≤ 1
(the data-model invariants for those tables), the weight after step C's
intensifier and diminisher stages is the frame weight times the
in-window maximum intensifier multiplier (default 1) times the
in-window minimum diminisher multiplier (default 1). -/
theorem C7_modifier_weight (m : FrameMatch) (ints dims : List (ℕ × ℚ))
    (hi : ∀ p ∈ ints, (1 : ℚ) ≤ p.2) (hd : ∀ p ∈ dims, p.2 ≤ (1 : ℚ)) :
    weightAfterModifiers m ints dims =
      m.weight * specIntensifierMult m.token_idx ints *
        specDiminisherMult m.token_idx dims := by
  rw [weightAfterModifiers, get_intensifier_eq_spec _ _ hi,
    get_diminisher_eq_spec _ _ hd]

/-- Witness for C7: one in-window intensifier (×2), one out-of-window
intensifier (×3), one in-window diminisher (×1/2). -/
theorem C7_modifier_weight_witness :
    (∀ p ∈ [((1 : ℕ), (2 : ℚ)), (9, 3)], (1 : ℚ) ≤ p.2) ∧
    (∀ p ∈ [((2 : ℕ), (1 : ℚ)/2)], p.2 ≤ (1 : ℚ)) ∧
    weightAfterModifiers mSelfNeg [((1 : ℕ), (2 : ℚ)), (9, 3)]
        [((2 : ℕ), (1 : ℚ)/2)] =
      mSelfNeg.weight *
        specIntensifierMult mSelfNeg.token_idx [((1 : ℕ), (2 : ℚ)), (9, 3)] *
        specDiminisherMult mSelfNeg.token_idx [((2 : ℕ), (1 : ℚ)/2)] := by
  have hi : ∀ p ∈ [((1 : ℕ), (2 : ℚ)), (9, 3)], (1 : ℚ) ≤ p.2 := by
    norm_num [List.forall_mem_cons]
  have hd : ∀ p ∈ [((2 : ℕ), (1 : ℚ)/2)], p.2 ≤ (1 : ℚ) := by
    norm_num [List.forall_mem_cons]
  exact ⟨hi, hd, C7_modifier_weight mSelfNeg _ _ hi hd⟩

-- ===================================================================
-- C5: hostile-address contribution to Angry
-- ===================================================================

lemma alistGet_cons_ne {β : Type} (p : String × β) (d : List (String × β))
    (k : String) (h : (p.1 == k) = false) :
    alistGet (p :: d) k = alistGet d k := by
  simp [alistGet, List.find?, h]

lemma addScore_cons_ne (p : String × ℚ) (d : List (String × ℚ))
    (k : String) (v : ℚ) (h : (p.1 == k) = false) :
    addScore (p :: d) k v = p :: addScore d k v := by
  by_cases hm : alistMem d k
  · have hm' : alistMem (p :: d) k = true := by
      simp only [alistMem, List.any_cons, h, Bool.false_or]
      exact hm
    simp only [addScore, hm, hm', if_true, List.map_cons, h,
      Bool.false_eq_true, if_false]
  · have hm' : alistMem (p :: d) k = false := by
      simp only [alistMem, List.any_cons, h, Bool.false_or]
      exact Bool.not_eq_true _ ▸ hm
    simp only [addScore, hm', Bool.false_eq_true, if_false, List.cons_append]
    rw [if_neg]
    exact hm

/-- Reading back the key just fed to `addScore`: the new value is the
old value (0 when the key was absent) plus the addend. -/
lemma alistGet_addScore (d : List (String × ℚ)) (k : String) (v : ℚ) :
    alistGet (addScore d k v) k = some ((alistGet d k).getD 0 + v) := by
  induction d with
  | nil => simp [addScore, alistMem, alistGet, List.find?]
  | cons p d ih =>
    cases hpk : (p.1 == k) with
    | true =>
      have hm : alistMem (p :: d) k = true := by
        simp [alistMem, List.any_cons, hpk]
      simp only [addScore, hm, if_true, List.map_cons, hpk, alistGet,
        List.find?, Option.map_some', Option.getD_some]
    | false =>
      rw [addScore_cons_ne p d k v hpk, alistGet_cons_ne p d k hpk,
        alistGet_cons_ne p (addScore d k v) k hpk]
      exact ih

/-- C5: whenever hostile-address tokens were detected, the Angry score
after Tier-3 inference equals the Angry score accumulated from frame
matches alone (0 when Angry had no frame match) plus exactly
`HOSTILE_ADDRESS_WEIGHT × hostile_count`. -/
theorem C5_hostile_contribution (c : Classifier) (tokens : List String)
    (hh : (analyze_linguistics c tokens).role_info.hostile_address = true) :
    alistGet (classify_ontology c tokens).1 "Angry" =
      some ((alistGet ((match_frames c tokens).foldl
          (inferStep (analyze_linguistics c tokens)) ([], [], [])).1
            "Angry").getD 0 +
        HOSTILE_ADDRESS_WEIGHT *
          (analyze_linguistics c tokens).role_info.hostile_count) := by
  show alistGet (infer_emotions (match_frames c tokens)
      (analyze_linguistics c tokens)).1 "Angry" = _
  rw [infer_emotions]
  simp only [hh, if_true]
  exact alistGet_addScore _ "Angry" _

/-- Witness for C5: one hostile pronoun next to one Happy trigger; the
Angry score is 0 + 0.7 × 1. -/
theorem C5_hostile_contribution_witness :
    (analyze_linguistics testC ["thoo", "joyful"]).role_info.hostile_address
      = true ∧
    alistGet (classify_ontology testC ["thoo", "joyful"]).1 "Angry" =
      some ((alistGet ((match_frames testC ["thoo", "joyful"]).foldl
          (inferStep (analyze_linguistics testC ["thoo", "joyful"]))
          ([], [], [])).1 "Angry").getD 0 +
        HOSTILE_ADDRESS_WEIGHT *
          (analyze_linguistics testC ["thoo", "joyful"]).role_info.hostile_count) :=
  ⟨by decide, C5_hostile_contribution testC ["thoo", "joyful"] (by decide)⟩

-- ===================================================================
-- C8: modifier exclusion
-- ===================================================================

lemma mem_tokenMatches_token (c : Classifier) (i : ℕ) (tok : String)
    (m : FrameMatch) (h : m ∈ tokenMatches c i tok) : m.token = tok := by
  obtain ⟨t, -, hf⟩ := List.mem_filterMap.1 h
  dsimp only at hf
  split at hf
  · exact absurd hf (by simp)
  · split at hf
    · exact absurd hf (by simp)
    · obtain rfl := Option.some.inj hf
      rfl

lemma mem_rawMatches (c : Classifier) (tokens : List String) (m : FrameMatch)
    (h : m ∈ rawMatches c tokens) :
    ∃ i tok, skipToken c tok = false ∧ m ∈ tokenMatches c i tok := by
  have key : ∀ (l : List (ℕ × String)) (acc : List FrameMatch),
      m ∈ l.foldl (fun acc p =>
        if skipToken c p.2 then acc else acc ++ tokenMatches c p.1 p.2) acc →
      m ∈ acc ∨ ∃ i tok, skipToken c tok = false ∧ m ∈ tokenMatches c i tok := by
    intro l
    induction l with
    | nil => exact fun acc h => Or.inl h
    | cons p ps ih =>
      intro acc h
      simp only [List.foldl_cons] at h
      rcases ih _ h with hacc | hex
      · by_cases hs : skipToken c p.2 = true
        · rw [if_pos hs] at hacc
          exact Or.inl hacc
        · rw [if_neg hs] at hacc
          rcases List.mem_append.1 hacc with h1 | h2
          · exact Or.inl h1
          · exact Or.inr ⟨p.1, p.2, by simpa using hs, h2⟩
      · exact Or.inr hex
  rcases key tokens.enum [] (by
    unfold rawMatches at h
    exact h) with h0 | hex
  · exact absurd h0 (List.not_mem_nil m)
  · exact hex

lemma mem_dedupStep (best : List ((ℕ × String) × FrameMatch))
    (m : FrameMatch) (q : (ℕ × String) × FrameMatch)
    (h : q ∈ dedupStep best m) : q ∈ best ∨ q.2 = m := by
  unfold dedupStep at h
  dsimp only at h
  split at h
  · rcases List.mem_append.1 h with h1 | h2
    · exact Or.inl h1
    · obtain rfl := List.mem_singleton.1 h2
      exact Or.inr rfl
  · split at h
    · obtain ⟨q', hq', hqe⟩ := List.mem_map.1 h
      by_cases hk : (q'.1 == (m.token_idx, m.frame_name)) = true
      · rw [if_pos hk] at hqe
        exact Or.inr (hqe ▸ rfl)
      · rw [if_neg hk] at hqe
        exact Or.inl (hqe ▸ hq')
    · exact Or.inl h

lemma mem_dedup_fold :
    ∀ (l : List FrameMatch) (best : List ((ℕ × String) × FrameMatch))
      (q : (ℕ × String) × FrameMatch),
      q ∈ l.foldl dedupStep best → q ∈ best ∨ q.2 ∈ l := by
  intro l
  induction l with
  | nil => exact fun best q h => Or.inl h
  | cons x xs ih =>
    intro best q h
    simp only [List.foldl_cons] at h
    rcases ih _ _ h with h1 | h2
    · rcases mem_dedupStep _ _ _ h1 with hb | he
      · exact Or.inl hb
      · exact Or.inr (he ▸ List.mem_cons_self x xs)
    · exact Or.inr (List.mem_cons_of_mem x h2)

lemma mem_match_frames (c : Classifier) (tokens : List String)
    (m : FrameMatch) (h : m ∈ match_frames c tokens) :
    m ∈ rawMatches c tokens := by
  unfold match_frames at h
  obtain ⟨q, hq, rfl⟩ := List.mem_map.1 h
  rcases mem_dedup_fold _ _ _ hq with h0 | h2
  · exact absurd h0 (List.not_mem_nil q)
  · exact h2

/-- Absence from every modifier table, the property C8 asserts of each
matched word. -/
def notModifierTok (c : Classifier) (t : String) : Prop :=
  c.negation_words.contains t = false ∧
  alistMem c.intensifier_map t = false ∧
  alistMem c.diminisher_map t = false ∧
  alistMem c.connective_map t = false

lemma skipToken_false (c : Classifier) (tok : String)
    (h : skipToken c tok = false) : notModifierTok c tok := by
  simp only [skipToken, Bool.or_eq_false_iff] at h
  exact ⟨h.1.1.1.2, h.1.1.2, h.1.2, h.2⟩

lemma inferStep_words (ctx : LinguisticContext)
    (acc : List (String × ℚ) × List (String × List String) × List String)
    (m : FrameMatch) :
    (inferStep ctx acc m).2.1 =
      addWordToken acc.2.1
        (selectEmotion m ctx.role_info ctx.negation_positions) m.token := rfl

lemma addWordToken_inv {d : List (String × List String)} {k tok : String}
    {P : String → Prop}
    (hd : ∀ ews ∈ d, ∀ t ∈ ews.2, P t) (htok : P tok) :
    ∀ ews ∈ addWordToken d k tok, ∀ t ∈ ews.2, P t := by
  intro ews hews t ht
  unfold addWordToken at hews
  split at hews
  · obtain ⟨q, hq, hqe⟩ := List.mem_map.1 hews
    by_cases hk : (q.1 == k) = true
    · rw [if_pos hk] at hqe
      subst hqe
      rcases List.mem_append.1 ht with h1 | h2
      · exact hd q hq t h1
      · obtain rfl := List.mem_singleton.1 h2
        exact htok
    · rw [if_neg hk] at hqe
      subst hqe
      exact hd q hq t ht
  · rcases List.mem_append.1 hews with h1 | h2
    · exact hd ews h1 t ht
    · obtain rfl := List.mem_singleton.1 h2
      obtain rfl := List.mem_singleton.1 ht
      exact htok

lemma infer_fold_words_inv (ctx : LinguisticContext) {P : String → Prop} :
    ∀ (ms : List FrameMatch)
      (acc : List (String × ℚ) × List (String × List String) × List String),
      (∀ ews ∈ acc.2.1, ∀ t ∈ ews.2, P t) → (∀ m ∈ ms, P m.token) →
      ∀ ews ∈ (ms.foldl (inferStep ctx) acc).2.1, ∀ t ∈ ews.2, P t := by
  intro ms
  induction ms with
  | nil => exact fun acc hacc _ => hacc
  | cons m ms ih =>
    intro acc hacc hms
    simp only [List.foldl_cons]
    refine ih _ ?_ (fun m' hm' => hms m' (List.mem_cons_of_mem _ hm'))
    rw [inferStep_words]
    exact addWordToken_inv hacc (hms m (List.mem_cons_self _ _))

lemma infer_words (ms : List FrameMatch) (ctx : LinguisticContext)
    {P : String → Prop} (hms : ∀ m ∈ ms, P m.token) :
    ∀ ews ∈ (infer_emotions ms ctx).2.1, ∀ t ∈ ews.2, P t := by
  intro ews hews t ht
  unfold infer_emotions at hews
  have hfold := infer_fold_words_inv ctx ms ([], [], [])
    (by intro q h; exact absurd h (List.not_mem_nil q)) hms
  split at hews
  · dsimp only at hews
    split at hews
    · exact hfold ews hews t ht
    · rcases List.mem_append.1 hews with h1 | h2
      · exact hfold ews h1 t ht
      · obtain rfl := List.mem_singleton.1 h2
        exact absurd ht (List.not_mem_nil t)
  · exact hfold ews hews t ht

/-- C8: no token recorded in `matched_words` belongs to the negation
set, the intensifier map, the diminisher map, or the connective map. -/
theorem C8_modifier_exclusion (c : Classifier) (tokens : List String)
    (e : String) (ws : List String) (t : String)
    (hmem : (e, ws) ∈ (classify_ontology c tokens).2.1) (ht : t ∈ ws) :
    c.negation_words.contains t = false ∧
    alistMem c.intensifier_map t = false ∧
    alistMem c.diminisher_map t = false ∧
    alistMem c.connective_map t = false := by
  have hP : ∀ m ∈ match_frames c tokens, notModifierTok c m.token := by
    intro m hm
    obtain ⟨i, tok, hskip, htm⟩ :=
      mem_rawMatches c tokens m (mem_match_frames c tokens m hm)
    rw [mem_tokenMatches_token c i tok m htm]
    exact skipToken_false c tok hskip
  exact @infer_words (match_frames c tokens) (analyze_linguistics c tokens)
    (notModifierTok c) hP (e, ws) hmem t ht

/-- Witness for C8 at a concrete matched trigger. -/
theorem C8_modifier_exclusion_witness :
    ("Happy", ["joyful"]) ∈ (classify_ontology testC ["joyful"]).2.1 ∧
    ("joyful" ∈ ["joyful"]) ∧
    (testC.negation_words.contains "joyful" = false ∧
     alistMem testC.intensifier_map "joyful" = false ∧
     alistMem testC.diminisher_map "joyful" = false ∧
     alistMem testC.connective_map "joyful" = false) := by
  have hw : (classify_ontology testC ["joyful"]).2.1 = [("Happy", ["joyful"])] := by
    have h1 : skipToken testC "joyful" = false := by decide
    have h2 : triggerFilter "joyful" "joyful" = true := by decide
    have h3 : triggerFilter "sorrow" "joyful" = false := by decide
    have h4 : analyze_linguistics testC ["joyful"] =
        { negation_positions := [], intensifier_positions := []
          diminisher_positions := [], connective_positions := []
          role_info := role0 } := by decide
    have hTrig : testC.triggers =
        [("joyful", "HappyFrame"), ("sorrow", "SadFrame")] := rfl
    have hFr : testC.frames_data =
        [("HappyFrame", happyFrame), ("SadFrame", sadFrame)] := rfl
    norm_num [classify_ontology, infer_emotions, inferStep, match_frames,
      rawMatches, tokenMatches, dedupStep, h1, h2, h3, h4, hTrig, hFr,
      alistGet, alistMem, happyFrame, sadFrame, role0, is_negated,
      selectEmotion, roleEmotion, computeWeight, weightAfterModifiers,
      get_intensifier_multiplier, get_diminisher_multiplier,
      get_discourse_weight, addScore, addWordToken, List.enum,
      List.enumFrom, List.filterMap, List.foldl, List.find?, List.filter,
      Option.map, matchExplLine, roleUsed]
  have hmem : ("Happy", ["joyful"]) ∈ (classify_ontology testC ["joyful"]).2.1 := by
    rw [hw]
    exact List.mem_singleton.2 rfl
  have ht : "joyful" ∈ ["joyful"] := by decide
  exact ⟨hmem, ht,
    C8_modifier_exclusion testC ["joyful"] "Happy" ["joyful"] "joyful" hmem ht⟩

-- ===================================================================
-- C1: confidence range
-- ===================================================================

/-- C1 counterexample: with a centroid table holding only the Neutral
centroid, the ML loop never updates `best_score`, so `predict` reports
confidence −1 — outside the claimed `[0, 1]`. -/
theorem C1_counterexample :
    (predict mlOnlyC [] []).confidence = -1 ∧
    ¬ (0 ≤ (predict mlOnlyC [] []).confidence ∧
       (predict mlOnlyC [] []).confidence ≤ 1) := by
  have h : (predict mlOnlyC [] []).confidence = -1 := by
    rw [predict_empty mlOnlyC [] [] (by decide)]
    show (classify_ml mlOnlyC []).2 = -1
    norm_num [classify_ml, mlOnlyC, dotp, List.foldl, round4, round_eq]
  refine ⟨h, ?_⟩
  rw [h]
  norm_num

lemma classify_ml_conf (c : Classifier) (emb : List ℚ)
    (h : (!c.model_available || c.centroids.isEmpty) = false) :
    (classify_ml c emb).2 =
      round4 ((c.centroids.foldl (fun (best : String × ℚ) p =>
        if p.1 == "Neutral" then best
        else if best.2 < dotp emb p.2 then (p.1, dotp emb p.2) else best)
        ("Neutral", -1)).2) := by
  unfold classify_ml
  simp only [h, Bool.false_eq_true, if_false]
  show (if (c.centroids.foldl (fun (best : String × ℚ) p =>
      if p.1 == "Neutral" then best
      else if best.2 < dotp emb p.2 then (p.1, dotp emb p.2) else best)
      ("Neutral", -1)).2 < (0.25 : ℚ) then
      (("Neutral" : String), round4 ((c.centroids.foldl (fun (best : String × ℚ) p =>
        if p.1 == "Neutral" then best
        else if best.2 < dotp emb p.2 then (p.1, dotp emb p.2) else best)
        ("Neutral", -1)).2))
    else
      ((c.centroids.foldl (fun (best : String × ℚ) p =>
        if p.1 == "Neutral" then best
        else if best.2 < dotp emb p.2 then (p.1, dotp emb p.2) else best)
        ("Neutral", -1)).1,
       round4 ((c.centroids.foldl (fun (best : String × ℚ) p =>
        if p.1 == "Neutral" then best
        else if best.2 < dotp emb p.2 then (p.1, dotp emb p.2) else best)
        ("Neutral", -1)).2))).2 = _
  split
  · rfl
  · rfl

lemma classify_ml_conf_bounds (c : Classifier) (emb : List ℚ)
    (hdot : ∀ p ∈ c.centroids, dotp emb p.2 ≤ 1) :
    -1 ≤ (classify_ml c emb).2 ∧ (classify_ml c emb).2 ≤ 1 := by
  have key : ∀ (l : List (String × List ℚ)) (best : String × ℚ),
      (∀ p ∈ l, dotp emb p.2 ≤ 1) → -1 ≤ best.2 → best.2 ≤ 1 →
      -1 ≤ (l.foldl (fun (best : String × ℚ) p =>
          if p.1 == "Neutral" then best
          else if best.2 < dotp emb p.2 then (p.1, dotp emb p.2) else best)
          best).2 ∧
      (l.foldl (fun (best : String × ℚ) p =>
          if p.1 == "Neutral" then best
          else if best.2 < dotp emb p.2 then (p.1, dotp emb p.2) else best)
          best).2 ≤ 1 := by
    intro l
    induction l with
    | nil => exact fun best _ h1 h2 => ⟨h1, h2⟩
    | cons q qs ih =>
      intro best hl h1 h2
      simp only [List.foldl_cons]
      have hq : dotp emb q.2 ≤ 1 := hl q (List.mem_cons_self _ _)
      have hl' : ∀ p ∈ qs, dotp emb p.2 ≤ 1 :=
        fun p hp => hl p (List.mem_cons_of_mem _ hp)
      by_cases hn : (q.1 == "Neutral") = true
      · rw [if_pos hn]
        exact ih best hl' h1 h2
      · rw [if_neg hn]
        by_cases hlt : best.2 < dotp emb q.2
        · rw [if_pos hlt]
          exact ih _ hl' (le_of_lt (lt_of_le_of_lt h1 hlt)) hq
        · rw [if_neg hlt]
          exact ih best hl' h1 h2
  by_cases hav : (!c.model_available || c.centroids.isEmpty) = true
  · unfold classify_ml
    rw [if_pos hav]
    norm_num
  · have h0 : (!c.model_available || c.centroids.isEmpty) = false := by
      simpa using hav
    rw [classify_ml_conf c emb h0]
    have hb := key c.centroids ("Neutral", -1) hdot (by norm_num) (by norm_num)
    exact ⟨neg_one_le_round4 hb.1, round4_le_one hb.2⟩

lemma alistGet_values {β : Type} (d : List (String × β)) (k : String) (v : β)
    (h : alistGet d k = some v) : ∃ p ∈ d, p.2 = v := by
  unfold alistGet at h
  rw [Option.map_eq_some'] at h
  obtain ⟨p, hp, hv⟩ := h
  exact ⟨p, List.mem_of_find?_eq_some hp, hv⟩

lemma analyzeStep_dims (c : Classifier) (ctx : LinguisticContext) (idx : ℕ)
    (token : String) :
    (analyzeStep c ctx idx token).diminisher_positions =
      (match alistGet c.diminisher_map token with
       | some m => ctx.diminisher_positions ++ [(idx, m)]
       | none => ctx.diminisher_positions) := rfl

lemma analyzeStep_conns (c : Classifier) (ctx : LinguisticContext) (idx : ℕ)
    (token : String) :
    (analyzeStep c ctx idx token).connective_positions =
      (match alistGet c.connective_map token with
       | some (ty, pre_w, post_w) =>
           ctx.connective_positions ++ [⟨idx, ty, pre_w, post_w⟩]
       | none => ctx.connective_positions) := rfl

lemma analyze_dims_nonneg (c : Classifier) (tokens : List String)
    (hd : ∀ p ∈ c.diminisher_map, (0 : ℚ) ≤ p.2) :
    ∀ p ∈ (analyze_linguistics c tokens).diminisher_positions, (0 : ℚ) ≤ p.2 := by
  have key : ∀ (l : List (ℕ × String)) (ctx : LinguisticContext),
      (∀ p ∈ ctx.diminisher_positions, (0 : ℚ) ≤ p.2) →
      ∀ p ∈ (l.foldl (fun ctx p => analyzeStep c ctx p.1 p.2)
        ctx).diminisher_positions, (0 : ℚ) ≤ p.2 := by
    intro l
    induction l with
    | nil => exact fun ctx hctx => hctx
    | cons q qs ih =>
      intro ctx hctx
      simp only [List.foldl_cons]
      refine ih _ ?_
      rw [analyzeStep_dims]
      cases hget : alistGet c.diminisher_map q.2 with
      | none => exact hctx
      | some m =>
        intro p hp
        rcases List.mem_append.1 hp with h1 | h2
        · exact hctx p h1
        · obtain rfl := List.mem_singleton.1 h2
          obtain ⟨q', hq', hv⟩ := alistGet_values _ _ _ hget
          exact hv ▸ hd q' hq'
  exact key tokens.enum _ (fun p hp => absurd hp (List.not_mem_nil p))

lemma analyze_conns_nonneg (c : Classifier) (tokens : List String)
    (hc : ∀ p ∈ c.connective_map, (0 : ℚ) ≤ p.2.2.1 ∧ (0 : ℚ) ≤ p.2.2.2) :
    ∀ cp ∈ (analyze_linguistics c tokens).connective_positions,
      (0 : ℚ) ≤ cp.pre_w ∧ (0 : ℚ) ≤ cp.post_w := by
  have key : ∀ (l : List (ℕ × String)) (ctx : LinguisticContext),
      (∀ cp ∈ ctx.connective_positions, (0 : ℚ) ≤ cp.pre_w ∧ (0 : ℚ) ≤ cp.post_w) →
      ∀ cp ∈ (l.foldl (fun ctx p => analyzeStep c ctx p.1 p.2)
        ctx).connective_positions, (0 : ℚ) ≤ cp.pre_w ∧ (0 : ℚ) ≤ cp.post_w := by
    intro l
    induction l with
    | nil => exact fun ctx hctx => hctx
    | cons q qs ih =>
      intro ctx hctx
      simp only [List.foldl_cons]
      refine ih _ ?_
      rw [analyzeStep_conns]
      cases hget : alistGet c.connective_map q.2 with
      | none => exact hctx
      | some trip =>
        obtain ⟨ty, pre_w, post_w⟩ := trip
        intro cp hcp
        rcases List.mem_append.1 hcp with h1 | h2
        · exact hctx cp h1
        · obtain rfl := List.mem_singleton.1 h2
          obtain ⟨q', hq', hv⟩ := alistGet_values _ _ _ hget
          have h1 := hc q' hq'
          rw [hv] at h1
          exact h1
  exact key tokens.enum _ (fun cp hcp => absurd hcp (List.not_mem_nil cp))

lemma mem_tokenMatches_weight (c : Classifier) (i : ℕ) (tok : String)
    (m : FrameMatch) (h : m ∈ tokenMatches c i tok) :
    ∃ q ∈ c.frames_data, m.weight = q.2.weight := by
  obtain ⟨t, -, hf⟩ := List.mem_filterMap.1 h
  dsimp only at hf
  split at hf
  · exact absurd hf (by simp)
  · split at hf
    · exact absurd hf (by simp)
    · next props heq =>
      obtain rfl := Option.some.inj hf
      obtain ⟨q, hq, hv⟩ := alistGet_values _ _ _ heq
      exact ⟨q, hq, by rw [hv]⟩

lemma match_frames_weight_nonneg (c : Classifier) (tokens : List String)
    (hw : ∀ q ∈ c.frames_data, (0 : ℚ) ≤ q.2.weight) :
    ∀ m ∈ match_frames c tokens, (0 : ℚ) ≤ m.weight := by
  intro m hm
  obtain ⟨i, tok, -, htm⟩ :=
    mem_rawMatches c tokens m (mem_match_frames c tokens m hm)
  obtain ⟨q, hq, hv⟩ := mem_tokenMatches_weight c i tok m htm
  rw [hv]
  exact hw q hq

lemma one_le_get_intensifier (i : ℕ) (ints : List (ℕ × ℚ)) :
    (1 : ℚ) ≤ get_intensifier_multiplier i ints := by
  unfold get_intensifier_multiplier
  have key : ∀ (l : List (ℕ × ℚ)) (b : ℚ),
      b ≤ l.foldl (fun best p =>
        if decide (((i : ℤ) - p.1).natAbs ≤ INTENSIFIER_WINDOW) && i != p.1
        then max best p.2 else best) b := by
    intro l
    induction l with
    | nil => exact fun b => le_refl b
    | cons p ps ih =>
      intro b
      simp only [List.foldl_cons]
      refine le_trans ?_ (ih _)
      split
      · exact le_max_left _ _
      · exact le_refl b
  exact key ints 1

lemma get_diminisher_nonneg (i : ℕ) (dims : List (ℕ × ℚ))
    (hd : ∀ p ∈ dims, (0 : ℚ) ≤ p.2) :
    (0 : ℚ) ≤ get_diminisher_multiplier i dims := by
  unfold get_diminisher_multiplier
  have key : ∀ (l : List (ℕ × ℚ)) (b : ℚ), (∀ p ∈ l, (0 : ℚ) ≤ p.2) →
      0 ≤ b → (0 : ℚ) ≤ l.foldl (fun best p =>
        if decide (((i : ℤ) - p.1).natAbs ≤ INTENSIFIER_WINDOW) && i != p.1
        then min best p.2 else best) b := by
    intro l
    induction l with
    | nil => exact fun b _ hb => hb
    | cons p ps ih =>
      intro b hl hb
      simp only [List.foldl_cons]
      refine ih _ (fun q hq => hl q (List.mem_cons_of_mem _ hq)) ?_
      split
      · exact le_min hb (hl p (List.mem_cons_self _ _))
      · exact hb
  exact key dims 1 hd (by norm_num)

lemma get_discourse_nonneg (i : ℕ) (conns : List ConnPos)
    (hc : ∀ cp ∈ conns, (0 : ℚ) ≤ cp.pre_w ∧ (0 : ℚ) ≤ cp.post_w) :
    (0 : ℚ) ≤ get_discourse_weight i conns := by
  unfold get_discourse_weight
  have key : ∀ (l : List ConnPos) (w : ℚ),
      (∀ cp ∈ l, (0 : ℚ) ≤ cp.pre_w ∧ (0 : ℚ) ≤ cp.post_w) → 0 ≤ w →
      (0 : ℚ) ≤ l.foldl (fun weight conn =>
        if conn.ty == "contrastive" then
          if i < conn.idx then weight * conn.pre_w
          else if i > conn.idx then weight * conn.post_w
          else weight
        else weight) w := by
    intro l
    induction l with
    | nil => exact fun w _ hw => hw
    | cons cn cs ih =>
      intro w hl hw
      simp only [List.foldl_cons]
      refine ih _ (fun q hq => hl q (List.mem_cons_of_mem _ hq)) ?_
      have hcn := hl cn (List.mem_cons_self _ _)
      split
      · split
        · exact mul_nonneg hw hcn.1
        · split
          · exact mul_nonneg hw hcn.2
          · exact hw
      · exact hw
  exact key conns 1 hc (by norm_num)

lemma computeWeight_nonneg (m : FrameMatch) (ctx : LinguisticContext)
    (hm : (0 : ℚ) ≤ m.weight)
    (hd : ∀ p ∈ ctx.diminisher_positions, (0 : ℚ) ≤ p.2)
    (hc : ∀ cp ∈ ctx.connective_positions,
      (0 : ℚ) ≤ cp.pre_w ∧ (0 : ℚ) ≤ cp.post_w) :
    (0 : ℚ) ≤ computeWeight m ctx := by
  unfold computeWeight weightAfterModifiers
  have h1 : (0 : ℚ) ≤ get_intensifier_multiplier m.token_idx
      ctx.intensifier_positions :=
    le_trans zero_le_one (one_le_get_intensifier _ _)
  exact mul_nonneg
    (mul_nonneg (mul_nonneg hm h1) (get_diminisher_nonneg _ _ hd))
    (get_discourse_nonneg _ _ hc)

lemma addScore_nonneg {d : List (String × ℚ)} {k : String} {v : ℚ}
    (hd : ∀ p ∈ d, (0 : ℚ) ≤ p.2) (hv : (0 : ℚ) ≤ v) :
    ∀ p ∈ addScore d k v, (0 : ℚ) ≤ p.2 := by
  intro p hp
  unfold addScore at hp
  split at hp
  · obtain ⟨q, hq, hqe⟩ := List.mem_map.1 hp
    by_cases hk : (q.1 == k) = true
    · rw [if_pos hk] at hqe
      subst hqe
      exact add_nonneg (hd q hq) hv
    · rw [if_neg hk] at hqe
      subst hqe
      exact hd q hq
  · rcases List.mem_append.1 hp with h1 | h2
    · exact hd p h1
    · obtain rfl := List.mem_singleton.1 h2
      exact hv

lemma inferStep_scores (ctx : LinguisticContext)
    (acc : List (String × ℚ) × List (String × List String) × List String)
    (m : FrameMatch) :
    (inferStep ctx acc m).1 =
      addScore acc.1 (selectEmotion m ctx.role_info ctx.negation_positions)
        (computeWeight m ctx) := rfl

lemma infer_fold_scores_nonneg (ctx : LinguisticContext) :
    ∀ (ms : List FrameMatch)
      (acc : List (String × ℚ) × List (String × List String) × List String),
      (∀ p ∈ acc.1, (0 : ℚ) ≤ p.2) →
      (∀ m ∈ ms, (0 : ℚ) ≤ computeWeight m ctx) →
      ∀ p ∈ (ms.foldl (inferStep ctx) acc).1, (0 : ℚ) ≤ p.2 := by
  intro ms
  induction ms with
  | nil => exact fun acc hacc _ => hacc
  | cons m ms ih =>
    intro acc hacc hms
    simp only [List.foldl_cons]
    refine ih _ ?_ (fun m' hm' => hms m' (List.mem_cons_of_mem _ hm'))
    rw [inferStep_scores]
    exact addScore_nonneg hacc (hms m (List.mem_cons_self _ _))

lemma classify_scores_nonneg (c : Classifier) (tokens : List String)
    (hw : ∀ q ∈ c.frames_data, (0 : ℚ) ≤ q.2.weight)
    (hdim : ∀ p ∈ c.diminisher_map, (0 : ℚ) ≤ p.2)
    (hconn : ∀ p ∈ c.connective_map, (0 : ℚ) ≤ p.2.2.1 ∧ (0 : ℚ) ≤ p.2.2.2) :
    ∀ p ∈ (classify_ontology c tokens).1, (0 : ℚ) ≤ p.2 := by
  have hfold := infer_fold_scores_nonneg (analyze_linguistics c tokens)
    (match_frames c tokens) ([], [], [])
    (fun p hp => absurd hp (List.not_mem_nil p))
    (fun m hm => computeWeight_nonneg m _
      (match_frames_weight_nonneg c tokens hw m hm)
      (analyze_dims_nonneg c tokens hdim)
      (analyze_conns_nonneg c tokens hconn))
  show ∀ p ∈ (infer_emotions (match_frames c tokens)
      (analyze_linguistics c tokens)).1, (0 : ℚ) ≤ p.2
  unfold infer_emotions
  split
  · dsimp only
    refine addScore_nonneg hfold ?_
    exact mul_nonneg (by norm_num [HOSTILE_ADDRESS_WEIGHT]) (Nat.cast_nonneg _)
  · exact hfold

lemma mem_insertDesc (x : String × ℚ) :
    ∀ (l : List (String × ℚ)) (y : String × ℚ),
      y ∈ insertDesc x l → y = x ∨ y ∈ l := by
  intro l
  induction l with
  | nil =>
    intro y h
    exact Or.inl (List.mem_singleton.1 h)
  | cons z zs ih =>
    intro y h
    unfold insertDesc at h
    split at h
    · rcases List.mem_cons.1 h with rfl | h2
      · exact Or.inl rfl
      · exact Or.inr h2
    · rcases List.mem_cons.1 h with rfl | h2
      · exact Or.inr (List.mem_cons_self _ _)
      · rcases ih y h2 with h3 | h4
        · exact Or.inl h3
        · exact Or.inr (List.mem_cons_of_mem _ h4)

lemma mem_sortDesc :
    ∀ (l : List (String × ℚ)) (y : String × ℚ), y ∈ sortDesc l → y ∈ l := by
  intro l
  induction l with
  | nil => exact fun y h => absurd h (by simp [sortDesc])
  | cons a rest ih =>
    intro y h
    rw [sortDesc, List.foldr_cons] at h
    rcases mem_insertDesc a _ y h with rfl | h2
    · exact List.mem_cons_self _ _
    · exact List.mem_cons_of_mem _ (ih y h2)

lemma length_insertDesc (x : String × ℚ) :
    ∀ (l : List (String × ℚ)), (insertDesc x l).length = l.length + 1 := by
  intro l
  induction l with
  | nil => rfl
  | cons z zs ih =>
    unfold insertDesc
    split
    · simp
    · simp only [List.length_cons, ih]

lemma length_sortDesc (l : List (String × ℚ)) :
    (sortDesc l).length = l.length := by
  induction l with
  | nil => rfl
  | cons a rest ih =>
    rw [sortDesc, List.foldr_cons, length_insertDesc]
    rw [sortDesc] at ih
    rw [ih, List.length_cons]

/-- C1 (amended): under the data-model invariants (non-negative frame
weights, diminisher multipliers and connective clause weights) and
centroid dot products at most 1, every confidence `predict` returns
lies in `[-1, 1]`. The Ontology paths stay within `[0, 1]` (the
single-emotion path within `[0.5, 1]`), but the ML fallback reports
`round4(best_score)` where `best_score` starts at −1 and can remain
negative, so the claimed lower bound 0 is not valid (see
`C1_counterexample`). -/
theorem C1_confidence_bounds (c : Classifier) (emb : List ℚ)
    (tokens : List String)
    (hw : ∀ q ∈ c.frames_data, (0 : ℚ) ≤ q.2.weight)
    (hdim : ∀ p ∈ c.diminisher_map, (0 : ℚ) ≤ p.2)
    (hconn : ∀ p ∈ c.connective_map, (0 : ℚ) ≤ p.2.2.1 ∧ (0 : ℚ) ≤ p.2.2.2)
    (hdot : ∀ p ∈ c.centroids, dotp emb p.2 ≤ 1) :
    -1 ≤ (predict c emb tokens).confidence ∧
    (predict c emb tokens).confidence ≤ 1 := by
  have hscores := classify_scores_nonneg c tokens hw hdim hconn
  rcases hsc : (classify_ontology c tokens).1 with _ | ⟨a, _ | ⟨b, rest⟩⟩
  · rw [predict_empty c emb tokens hsc]
    exact classify_ml_conf_bounds c emb hdot
  · have hsc' : (classify_ontology c tokens).1 = [(a.1, a.2)] := by rw [hsc]
    rw [predict_one c emb tokens a.1 a.2 hsc']
    constructor
    · exact le_trans (by norm_num) (le_max_right _ _)
    · exact max_le (min_le_right _ _) (by norm_num)
  · by_cases hcond : dominanceCond ((sortDesc (a :: b :: rest)).headD ("", 0))
        (((sortDesc (a :: b :: rest)).drop 1).headD ("", 0))
    · rw [predict_multi_dom c emb tokens a b rest hsc hcond]
      have ht : 0 < ((sortDesc (a :: b :: rest)).headD ("", 0)).2 := hcond.1
      have hs : 0 ≤ (((sortDesc (a :: b :: rest)).drop 1).headD ("", 0)).2 := by
        have hlen : (sortDesc (a :: b :: rest)).length = rest.length + 2 := by
          rw [length_sortDesc]
          simp
        rcases hsort : sortDesc (a :: b :: rest) with _ | ⟨x, _ | ⟨y, t⟩⟩
        · rw [hsort] at hlen
          simp at hlen
        · rw [hsort] at hlen
          simp at hlen
        · have hy2 : y ∈ a :: b :: rest := by
            refine mem_sortDesc _ _ ?_
            rw [hsort]
            exact List.mem_cons_of_mem _ (List.mem_cons_self _ _)
          have hyn : (0 : ℚ) ≤ y.2 := by
            refine hscores y ?_
            rw [hsc]
            exact hy2
          simpa using hyn
      constructor
      · refine le_min ?_ (by norm_num)
        have hpos : 0 ≤ ((sortDesc (a :: b :: rest)).headD ("", 0)).2 /
            (((sortDesc (a :: b :: rest)).headD ("", 0)).2 +
             (((sortDesc (a :: b :: rest)).drop 1).headD ("", 0)).2) :=
          div_nonneg ht.le (by linarith)
        linarith [round4_nonneg hpos]
      · exact min_le_right _ _
    · rw [predict_multi_conflict c emb tokens a b rest hsc hcond]
      exact classify_ml_conf_bounds c emb hdot

/-- Witness for C1 at a concrete classifier and input. -/
theorem C1_confidence_bounds_witness :
    (∀ q ∈ testC.frames_data, (0 : ℚ) ≤ q.2.weight) ∧
    (∀ p ∈ testC.diminisher_map, (0 : ℚ) ≤ p.2) ∧
    (∀ p ∈ testC.connective_map, (0 : ℚ) ≤ p.2.2.1 ∧ (0 : ℚ) ≤ p.2.2.2) ∧
    (∀ p ∈ testC.centroids, dotp [0] p.2 ≤ 1) ∧
    (-1 ≤ (predict testC [0] ["joyful"]).confidence ∧
     (predict testC [0] ["joyful"]).confidence ≤ 1) := by
  have hw : ∀ q ∈ testC.frames_data, (0 : ℚ) ≤ q.2.weight := by
    norm_num [testC, happyFrame, sadFrame, List.forall_mem_cons]
  have hdim : ∀ p ∈ testC.diminisher_map, (0 : ℚ) ≤ p.2 := by
    norm_num [testC, List.forall_mem_cons]
  have hconn : ∀ p ∈ testC.connective_map,
      (0 : ℚ) ≤ p.2.2.1 ∧ (0 : ℚ) ≤ p.2.2.2 := by
    norm_num [testC, List.forall_mem_cons]
  have hdot : ∀ p ∈ testC.centroids, dotp [0] p.2 ≤ 1 := by
    norm_num [testC, List.forall_mem_cons, dotp]
  exact ⟨hw, hdim, hconn, hdot,
    C1_confidence_bounds testC [0] ["joyful"] hw hdim hconn hdot⟩
